import Mathlib

/-!
Shapes subscriber (`src/c++/shapes_subscriber.cxx`).

A shallow embedding of the example subscriber: the `DRListener` callbacks
(`on_data_available`, `on_subscription_matched`), the polling loop of
`run_subscriber_application` and the exit code of `main`.

Conventions of the embedding.

* `samples_read` is a C++ `static unsigned int`; it is a `Nat` and every
  increment is reduced modulo `UINT_MODULUS = 2 ^ 32`.
* `cout` is the list of the records written to standard output, one entry for
  each `endl`.
* The payload type `ShapeTypeExtended` and its `operator<<` come from the
  generated header `shapes.hpp`; they are parameters (`T` and `fmt`).
* The listener runs on middleware threads, the loop on the main thread.  An
  execution is a schedule: a list of events, each one either a step of the
  driver loop or a callback / signal of the environment.
-/

namespace ShapesSubscriber

/-! ## Data model -/

/-- Number of values of the C++ type `unsigned int`, 32 bits wide on the
platforms the middleware supports. -/
def UINT_MODULUS : Nat := 2 ^ 32

/-- The metadata of a sample, `sample.info()`; only `valid()` is consulted. -/
structure SampleInfo where
  valid : Bool
  deriving DecidableEq, Repr

/-- One element of `dds::sub::LoanedSamples<T>`: payload and metadata. -/
structure LoanedSample (T : Type) where
  data : T
  info : SampleInfo
  deriving DecidableEq, Repr

/-- The value `dds::core::Duration(sec, nanosec)`. -/
structure Duration where
  sec : Nat
  nanosec : Nat
  deriving DecidableEq, Repr

/-- Control point of the `while` loop of `run_subscriber_application`
(lines 92-96): about to evaluate the guard, about to print the "sleeping"
record, about to call `rti::util::sleep`, or past the loop. -/
inductive LoopPc where
  | check
  | announce
  | sleeping
  | exited
  deriving DecidableEq, Repr

/-- The observable state of the process: the static counter, the global
`application::shutdown_requested`, the argument `sample_count`, what was
written to `cout`, the sleeps performed, and the control point of the loop. -/
structure State where
  samples_read : Nat
  shutdown_requested : Bool
  sample_count : Nat
  cout : List String
  slept : List Duration
  pc : LoopPc
  deriving DecidableEq, Repr

/-- The state when `run_subscriber_application` reaches its loop for the first
time: `static unsigned int samples_read = 0`, nothing printed, no sleep. -/
def State.init (sample_count : Nat) : State :=
  { samples_read := 0, shutdown_requested := false, sample_count := sample_count,
    cout := [], slept := [], pc := LoopPc.check }

/-! ## The listener -/

/-- Body of the `for` loop of `on_data_available` (lines 53-59) for one
sample: a valid sample increments the counter and is printed, an invalid one
does nothing. -/
def on_data_available_sample {T : Type} (fmt : T → String) (st : State)
    (sample : LoanedSample T) : State :=
  if sample.info.valid then
    { st with samples_read := (st.samples_read + 1) % UINT_MODULUS,
              cout := st.cout ++ [fmt sample.data] }
  else
    st

/-- The callback `DRListener::on_data_available` (lines 49-61); `samples` is
the batch returned by `reader.take()`. -/
def on_data_available {T : Type} (fmt : T → String) (samples : List (LoanedSample T))
    (st : State) : State :=
  samples.foldl (on_data_available_sample fmt) st

/-- The record printed by `on_subscription_matched` (lines 68-70). -/
def subscription_matched_line (current_count_change : Int) : String :=
  "Inside on_subscription_matched: " ++
    (if current_count_change < 0 then "lost" else "found") ++ " a publisher"

/-- The callback `DRListener::on_subscription_matched` (lines 63-71). -/
def on_subscription_matched (current_count_change : Int) (st : State) : State :=
  { st with cout := st.cout ++ [subscription_matched_line current_count_change] }

/-! ## The driver loop -/

/-- The record printed at the top of the loop body (line 93). -/
def sleeping_line : String := "::ShapeTypeExtended subscriber sleeping up to 5 sec..."

/-- The guard of the `while` loop (line 92). -/
def loop_guard (st : State) : Bool :=
  !st.shutdown_requested && decide (st.samples_read < st.sample_count)

/-- One step of the main thread inside `run_subscriber_application`
(lines 92-96). -/
def driver_step (st : State) : State :=
  match st.pc with
  | LoopPc.check =>
      if loop_guard st then { st with pc := LoopPc.announce }
      else { st with pc := LoopPc.exited }
  | LoopPc.announce =>
      { st with cout := st.cout ++ [sleeping_line], pc := LoopPc.sleeping }
  | LoopPc.sleeping =>
      { st with slept := st.slept ++ [Duration.mk 5 0], pc := LoopPc.check }
  | LoopPc.exited => st

/-- The `while` loop of `run_subscriber_application` (lines 92-96) run on its
own from the guard, with no callback and no signal in between: each turn is a
guard evaluation followed by the print and the sleep.  `fuel` bounds the
number of guard evaluations; the result is `none` when it runs out inside the
loop. -/
def run_subscriber_application : Nat → State → Option State
  | 0, _ => none
  | fuel + 1, st =>
      if loop_guard st then
        run_subscriber_application fuel (driver_step (driver_step (driver_step st)))
      else
        some (driver_step st)

/-- What can happen next in the process: a step of the main thread, one of the
two listener callbacks on a middleware thread, or the interrupt signal. -/
inductive Event (T : Type) where
  | tick
  | data (samples : List (LoanedSample T))
  | matched (current_count_change : Int)
  | signal

/-- Modelled from the spec: the signal handler installed by
`setup_signal_handlers` (header `application.hpp`) sets the global shutdown
flag on interrupt. -/
def signal_handler (st : State) : State :=
  { st with shutdown_requested := true }

/-- Effect of one event. -/
def step {T : Type} (fmt : T → String) (st : State) : Event T → State
  | Event.tick => driver_step st
  | Event.data samples => on_data_available fmt samples st
  | Event.matched d => on_subscription_matched d st
  | Event.signal => signal_handler st

/-- Effect of a schedule, events taken from left to right. -/
def run {T : Type} (fmt : T → String) (st : State) (es : List (Event T)) : State :=
  es.foldl (step fmt) st

/-- The environment events: everything but a step of the main thread. -/
def Event.isEnv {T : Type} : Event T → Bool
  | Event.tick => false
  | _ => true

/-- The events that deliver samples: the calls of `on_data_available`. -/
def Event.isData {T : Type} : Event T → Bool
  | Event.data _ => true
  | _ => false

/-- Number of valid samples of a batch. -/
def validCount {T : Type} (samples : List (LoanedSample T)) : Nat :=
  samples.countP (fun s => s.info.valid)

/-- Payload records of the valid samples of a batch, in batch order. -/
def validLines {T : Type} (fmt : T → String) (samples : List (LoanedSample T)) :
    List String :=
  (samples.filter (fun s => s.info.valid)).map (fun s => fmt s.data)

/-- Number of valid samples delivered by the `on_data_available` calls of a
schedule. -/
def validDelivered {T : Type} : List (Event T) → Nat
  | [] => 0
  | Event.data samples :: es => validCount samples + validDelivered es
  | _ :: es => validDelivered es

/-- Number of samples, valid or not, delivered by the `on_data_available`
calls of a schedule. -/
def samplesDelivered {T : Type} : List (Event T) → Nat
  | [] => 0
  | Event.data samples :: es => samples.length + samplesDelivered es
  | _ :: es => samplesDelivered es

/-- Sizes of the batches passed to `on_data_available` along a schedule. -/
def batchSizes {T : Type} : List (Event T) → List Nat
  | [] => []
  | Event.data samples :: es => samples.length :: batchSizes es
  | _ :: es => batchSizes es

/-- A string occurs inside a record. -/
def Says (line pat : String) : Prop := pat.toList <:+: line.toList

instance (line pat : String) : Decidable (Says line pat) := by
  unfold Says; infer_instance

/-! ## `main` -/

/-- The enumeration `application::ParseReturn` of `application.hpp`; `main`
compares against `exit` and `failure`, any other value continues. -/
inductive ParseReturn where
  | ok
  | failure
  | exit
  deriving DecidableEq, Repr

/-- How the call of `run_subscriber_application` inside the `try` block ends:
it returns, or it throws a `std::exception` with message `what`. -/
inductive RunOutcome where
  | returned
  | threw (what : String)
  deriving DecidableEq, Repr

def EXIT_SUCCESS : Int := 0

def EXIT_FAILURE : Int := 1

/-- The function `main` (lines 99-130): exit code and what is written to
`cerr`.  `run_app` is only called when the arguments parsed. -/
def main (parse_result : ParseReturn) (run_app : Unit → RunOutcome) : Int × List String :=
  if parse_result = ParseReturn.exit then (EXIT_SUCCESS, [])
  else if parse_result = ParseReturn.failure then (EXIT_FAILURE, [])
  else
    match run_app () with
    | RunOutcome.threw what =>
        (EXIT_FAILURE, ["Exception in run_subscriber_application(): " ++ what])
    | RunOutcome.returned => (EXIT_SUCCESS, [])

/-! ## Lemmas on the listener -/

theorem UINT_MODULUS_pos : 0 < UINT_MODULUS := by
  unfold UINT_MODULUS; norm_num

theorem oda_nil {T : Type} (fmt : T → String) (st : State) :
    on_data_available fmt [] st = st := rfl

theorem oda_cons {T : Type} (fmt : T → String) (s : LoanedSample T)
    (samples : List (LoanedSample T)) (st : State) :
    on_data_available fmt (s :: samples) st =
      on_data_available fmt samples (on_data_available_sample fmt st s) := rfl

/-- Draining a batch is draining its samples one after the other: a batch
cut in two behaves as two batches, so a reader of the counter that looks in
the middle of a batch sees a state of the model. -/
theorem oda_append {T : Type} (fmt : T → String) (xs ys : List (LoanedSample T))
    (st : State) :
    on_data_available fmt (xs ++ ys) st
      = on_data_available fmt ys (on_data_available fmt xs st) := by
  unfold on_data_available
  rw [List.foldl_append]

theorem validCount_nil {T : Type} : validCount ([] : List (LoanedSample T)) = 0 := rfl

theorem validCount_cons {T : Type} (s : LoanedSample T) (samples : List (LoanedSample T)) :
    validCount (s :: samples) = validCount samples + (if s.info.valid then 1 else 0) := by
  unfold validCount
  rw [List.countP_cons]

theorem validCount_le_length {T : Type} (samples : List (LoanedSample T)) :
    validCount samples ≤ samples.length := by
  unfold validCount
  exact List.countP_le_length _

theorem validCount_replicate {T : Type} (n : Nat) (s : LoanedSample T)
    (h : s.info.valid = true) : validCount (List.replicate n s) = n := by
  induction n with
  | zero => rfl
  | succ k ih =>
      rw [List.replicate_succ, validCount_cons, ih, h]
      simp

theorem validLines_length {T : Type} (fmt : T → String) (samples : List (LoanedSample T)) :
    (validLines fmt samples).length = validCount samples := by
  unfold validLines validCount
  rw [List.length_map, List.countP_eq_length_filter]

/-- The counter after a batch, modulo the width of `unsigned int`. -/
theorem oda_samples_read_mod {T : Type} (fmt : T → String) (samples : List (LoanedSample T))
    (st : State) :
    (on_data_available fmt samples st).samples_read % UINT_MODULUS =
      (st.samples_read + validCount samples) % UINT_MODULUS := by
  induction samples generalizing st with
  | nil => simp [oda_nil, validCount_nil]
  | cons s rest ih =>
      rw [oda_cons, ih, validCount_cons]
      unfold on_data_available_sample
      by_cases hv : s.info.valid = true
      · simp only [hv, if_true]
        rw [Nat.add_mod, Nat.mod_mod, ← Nat.add_mod]
        congr 1
        omega
      · simp [hv]

/-- A batch keeps the counter inside the range of `unsigned int`. -/
theorem oda_samples_read_lt {T : Type} (fmt : T → String) (samples : List (LoanedSample T))
    (st : State) (h : st.samples_read < UINT_MODULUS) :
    (on_data_available fmt samples st).samples_read < UINT_MODULUS := by
  induction samples generalizing st with
  | nil => simpa [oda_nil] using h
  | cons s rest ih =>
      rw [oda_cons]
      apply ih
      unfold on_data_available_sample
      by_cases hv : s.info.valid = true
      · simp only [hv, if_true]
        exact Nat.mod_lt _ UINT_MODULUS_pos
      · simpa [hv] using h

theorem oda_samples_read {T : Type} (fmt : T → String) (samples : List (LoanedSample T))
    (st : State) (h : st.samples_read < UINT_MODULUS) :
    (on_data_available fmt samples st).samples_read =
      (st.samples_read + validCount samples) % UINT_MODULUS := by
  rw [← oda_samples_read_mod fmt samples st]
  exact (Nat.mod_eq_of_lt (oda_samples_read_lt fmt samples st h)).symm

theorem oda_cout {T : Type} (fmt : T → String) (samples : List (LoanedSample T))
    (st : State) :
    (on_data_available fmt samples st).cout = st.cout ++ validLines fmt samples := by
  induction samples generalizing st with
  | nil => simp [oda_nil, validLines]
  | cons s rest ih =>
      rw [oda_cons, ih]
      unfold on_data_available_sample validLines
      by_cases hv : s.info.valid = true
      · simp [hv]
      · simp [hv]

/-- A batch touches nothing but the counter and `cout`. -/
theorem oda_frame {T : Type} (fmt : T → String) (samples : List (LoanedSample T))
    (st : State) :
    (on_data_available fmt samples st).shutdown_requested = st.shutdown_requested ∧
    (on_data_available fmt samples st).sample_count = st.sample_count ∧
    (on_data_available fmt samples st).slept = st.slept ∧
    (on_data_available fmt samples st).pc = st.pc := by
  induction samples generalizing st with
  | nil => simp [oda_nil]
  | cons s rest ih =>
      rw [oda_cons]
      obtain ⟨h1, h2, h3, h4⟩ := ih (on_data_available_sample fmt st s)
      rw [h1, h2, h3, h4]
      unfold on_data_available_sample
      by_cases hv : s.info.valid = true
      · simp [hv]
      · simp [hv]

/-! ## Lemmas on schedules -/

theorem run_nil {T : Type} (fmt : T → String) (st : State) : run fmt st [] = st := rfl

theorem run_cons {T : Type} (fmt : T → String) (st : State) (e : Event T)
    (es : List (Event T)) : run fmt st (e :: es) = run fmt (step fmt st e) es := rfl

theorem run_append {T : Type} (fmt : T → String) (st : State) (es fs : List (Event T)) :
    run fmt st (es ++ fs) = run fmt (run fmt st es) fs := by
  unfold run
  rw [List.foldl_append]

theorem driver_step_samples_read (st : State) :
    (driver_step st).samples_read = st.samples_read := by
  unfold driver_step
  cases st.pc <;> simp
  split <;> rfl

theorem driver_step_shutdown (st : State) :
    (driver_step st).shutdown_requested = st.shutdown_requested := by
  unfold driver_step
  cases st.pc <;> simp
  split <;> rfl

theorem driver_step_sample_count (st : State) :
    (driver_step st).sample_count = st.sample_count := by
  unfold driver_step
  cases st.pc <;> simp
  split <;> rfl

/-- Only `on_data_available` moves the counter. -/
theorem step_samples_read_of_not_data {T : Type} (fmt : T → String) (st : State)
    (e : Event T) (h : e.isData = false) :
    (step fmt st e).samples_read = st.samples_read := by
  cases e with
  | tick => exact driver_step_samples_read st
  | data samples => simp [Event.isData] at h
  | matched d => rfl
  | signal => rfl

theorem step_samples_read_lt {T : Type} (fmt : T → String) (st : State) (e : Event T)
    (h : st.samples_read < UINT_MODULUS) : (step fmt st e).samples_read < UINT_MODULUS := by
  cases e with
  | tick => rw [step, driver_step_samples_read]; exact h
  | data samples => exact oda_samples_read_lt fmt samples st h
  | matched d => exact h
  | signal => exact h

theorem step_samples_read {T : Type} (fmt : T → String) (st : State) (e : Event T)
    (h : st.samples_read < UINT_MODULUS) :
    (step fmt st e).samples_read = (st.samples_read + validDelivered [e]) % UINT_MODULUS := by
  cases e with
  | tick =>
      rw [step, driver_step_samples_read]
      simpa [validDelivered] using (Nat.mod_eq_of_lt h).symm
  | data samples =>
      simpa [validDelivered] using oda_samples_read fmt samples st h
  | matched d => simpa [validDelivered, step, on_subscription_matched] using (Nat.mod_eq_of_lt h).symm
  | signal => simpa [validDelivered, step, signal_handler] using (Nat.mod_eq_of_lt h).symm

theorem validDelivered_cons {T : Type} (e : Event T) (es : List (Event T)) :
    validDelivered (e :: es) = validDelivered [e] + validDelivered es := by
  cases e <;> simp [validDelivered]

theorem run_samples_read_lt {T : Type} (fmt : T → String) (st : State) (es : List (Event T))
    (h : st.samples_read < UINT_MODULUS) : (run fmt st es).samples_read < UINT_MODULUS := by
  induction es generalizing st with
  | nil => exact h
  | cons e es ih => exact ih _ (step_samples_read_lt fmt st e h)

theorem run_samples_read {T : Type} (fmt : T → String) (st : State) (es : List (Event T))
    (h : st.samples_read < UINT_MODULUS) :
    (run fmt st es).samples_read = (st.samples_read + validDelivered es) % UINT_MODULUS := by
  induction es generalizing st with
  | nil => simpa [run_nil, validDelivered] using (Nat.mod_eq_of_lt h).symm
  | cons e es ih =>
      rw [run_cons, ih _ (step_samples_read_lt fmt st e h), step_samples_read fmt st e h,
        validDelivered_cons e es, Nat.mod_add_mod, Nat.add_assoc]

/-- From the initial state one batch of `n` valid samples brings the counter
to `n`, for every `n` in the range of `unsigned int`. -/
theorem reach_count (sample_count n : Nat) (hn : n < UINT_MODULUS) :
    (run id (State.init sample_count)
      [Event.data (List.replicate n (LoanedSample.mk "a" (SampleInfo.mk true)))]).samples_read
      = n := by
  rw [run_cons, run_nil, step, oda_samples_read id _ _ UINT_MODULUS_pos,
    validCount_replicate _ _ rfl]
  show (0 + n) % UINT_MODULUS = n
  rw [Nat.zero_add]
  exact Nat.mod_eq_of_lt hn

theorem uint_max_lt : 4294967295 < UINT_MODULUS := by
  unfold UINT_MODULUS; norm_num

/-- At the largest `unsigned int` one more valid sample wraps the counter to
`0` and still prints its record. -/
theorem wrap_at_uint_max (st : State) (h : st.samples_read = 4294967295) (d : String) :
    (on_data_available id [LoanedSample.mk d (SampleInfo.mk true)] st).samples_read = 0 ∧
    (on_data_available id [LoanedSample.mk d (SampleInfo.mk true)] st).cout
      = st.cout ++ [d] := by
  rw [oda_cons, oda_nil]
  unfold on_data_available_sample
  simp only [if_true, h, id]
  constructor
  · unfold UINT_MODULUS; norm_num
  · trivial

/-! ## C1: the counter against the number of valid samples -/

/-- C1, as stated, fails: from the starting value `4294967295` one batch with
one valid sample leaves `samples_read` at `0`, not at the starting value plus
one. -/
theorem C1_counterexample :
    (run id { State.init 3 with samples_read := 4294967295 }
        [Event.data [LoanedSample.mk "a" (SampleInfo.mk true)]]).samples_read = 0 ∧
    (run id { State.init 3 with samples_read := 4294967295 }
        [Event.data [LoanedSample.mk "a" (SampleInfo.mk true)]]).samples_read ≠
      4294967295 + validDelivered [Event.data [LoanedSample.mk "a" (SampleInfo.mk true)]] := by
  constructor <;> decide

/-- C1 (amended): for every starting value of `samples_read` in the range of
`unsigned int`, every `sample_count` and every schedule of callbacks (batches
interleaved with `on_subscription_matched` calls, loop steps and signals),
`samples_read` afterwards is the starting value plus the number of valid
samples of the batches, modulo `2 ^ 32`; it is exactly that sum whenever the
sum stays below `2 ^ 32`.  Invalid samples add nothing and nothing is capped
at `sample_count`. -/
theorem C1_samples_read_counts_valid_mod {T : Type} (fmt : T → String) (st : State)
    (es : List (Event T)) (h : st.samples_read < UINT_MODULUS) :
    (run fmt st es).samples_read = (st.samples_read + validDelivered es) % UINT_MODULUS ∧
    (st.samples_read + validDelivered es < UINT_MODULUS →
      (run fmt st es).samples_read = st.samples_read + validDelivered es) := by
  refine ⟨run_samples_read fmt st es h, fun hlt => ?_⟩
  rw [run_samples_read fmt st es h]
  exact Nat.mod_eq_of_lt hlt

/-- C1, witness: the batch `[invalid, valid]` between two connectivity events
from `0` gives `1`, and five valid samples with `sample_count = 3` give `5`. -/
theorem C1_samples_read_counts_valid_mod_witness :
    (State.init 3).samples_read < UINT_MODULUS ∧
    (run id (State.init 3) [Event.matched 1,
        Event.data [LoanedSample.mk "a" (SampleInfo.mk false),
          LoanedSample.mk "b" (SampleInfo.mk true)], Event.matched (-1)]).samples_read = 1 ∧
    (run id (State.init 3)
        [Event.data (List.replicate 5 (LoanedSample.mk "a" (SampleInfo.mk true)))]).samples_read
      = 5 :=
  ⟨by decide,
   (C1_samples_read_counts_valid_mod id (State.init 3) [Event.matched 1,
        Event.data [LoanedSample.mk "a" (SampleInfo.mk false),
          LoanedSample.mk "b" (SampleInfo.mk true)], Event.matched (-1)] (by decide)).2
      (by decide),
   (C1_samples_read_counts_valid_mod id (State.init 3)
        [Event.data (List.replicate 5 (LoanedSample.mk "a" (SampleInfo.mk true)))]
        (by decide)).2 (by decide)⟩

/-! ## C9: what a batch prints -/

/-- C9, as stated, fails in its last clause: in the state reached after
`4294967295` valid samples a batch with one valid sample writes one record
while `samples_read` goes from `4294967295` to `0`. -/
theorem C9_counterexample :
    ∃ st : State,
      st = run id (State.init 0)
        [Event.data (List.replicate 4294967295 (LoanedSample.mk "a" (SampleInfo.mk true)))] ∧
      st.samples_read = 4294967295 ∧
      (on_data_available id [LoanedSample.mk "b" (SampleInfo.mk true)] st).cout.length
        = st.cout.length + 1 ∧
      (on_data_available id [LoanedSample.mk "b" (SampleInfo.mk true)] st).samples_read = 0 := by
  have hr := reach_count 0 4294967295 uint_max_lt
  have hw := wrap_at_uint_max _ hr "b"
  refine ⟨_, rfl, hr, ?_, hw.1⟩
  rw [hw.2, List.length_append, List.length_singleton]

/-- C9 (amended): for every batch, the records `on_data_available` appends to
`cout` are exactly the payloads of the valid samples of the batch, one record
for each, in batch order; an invalid sample changes nothing; nothing but
`cout` and the counter changes.  The number of records written equals the
increase of `samples_read` modulo `2 ^ 32`, and equals it exactly whenever the
counter does not wrap (`samples_read` plus the number of valid samples stays
below `2 ^ 32`). -/
theorem C9_batch_output {T : Type} (fmt : T → String) (samples : List (LoanedSample T))
    (st : State) (h : st.samples_read < UINT_MODULUS) :
    (on_data_available fmt samples st).cout =
        st.cout ++ (samples.filter (fun s => s.info.valid)).map (fun s => fmt s.data) ∧
    (∀ s : LoanedSample T, s.info.valid = false → on_data_available_sample fmt st s = st) ∧
    (on_data_available fmt samples st).samples_read =
        (st.samples_read
          + ((samples.filter (fun s => s.info.valid)).map (fun s => fmt s.data)).length)
          % UINT_MODULUS ∧
    (st.samples_read + validCount samples < UINT_MODULUS →
      (on_data_available fmt samples st).samples_read =
        st.samples_read
          + ((samples.filter (fun s => s.info.valid)).map (fun s => fmt s.data)).length) ∧
    (on_data_available fmt samples st).shutdown_requested = st.shutdown_requested ∧
    (on_data_available fmt samples st).sample_count = st.sample_count ∧
    (on_data_available fmt samples st).slept = st.slept ∧
    (on_data_available fmt samples st).pc = st.pc := by
  have hlen : ((samples.filter (fun s => s.info.valid)).map (fun s => fmt s.data)).length
      = validCount samples := validLines_length fmt samples
  refine ⟨oda_cout fmt samples st, ?_, ?_, ?_, oda_frame fmt samples st⟩
  · intro s hs
    unfold on_data_available_sample
    simp [hs]
  · rw [hlen]
    exact oda_samples_read fmt samples st h
  · intro hlt
    rw [hlen, oda_samples_read fmt samples st h]
    exact Nat.mod_eq_of_lt hlt

/-- C9, witness: the batch `[invalid "a", valid "b", valid "c"]` from the
initial state. -/
theorem C9_batch_output_witness :
    (State.init 3).samples_read < UINT_MODULUS ∧
    (on_data_available id [LoanedSample.mk "a" (SampleInfo.mk false),
        LoanedSample.mk "b" (SampleInfo.mk true), LoanedSample.mk "c" (SampleInfo.mk true)]
        (State.init 3)).cout = ["b", "c"] :=
  ⟨by decide,
   (C9_batch_output id [LoanedSample.mk "a" (SampleInfo.mk false),
        LoanedSample.mk "b" (SampleInfo.mk true), LoanedSample.mk "c" (SampleInfo.mk true)]
        (State.init 3) (by decide)).1⟩

/-! ## C4, C10, C5: connectivity events -/

theorem matched_line_neg (delta : Int) (h : delta < 0) :
    subscription_matched_line delta = "Inside on_subscription_matched: lost a publisher" := by
  unfold subscription_matched_line
  rw [if_pos h]
  decide

theorem matched_line_nonneg (delta : Int) (h : ¬ delta < 0) :
    subscription_matched_line delta = "Inside on_subscription_matched: found a publisher" := by
  unfold subscription_matched_line
  rw [if_neg h]
  decide

/-- C4: for every integer `delta`, `on_subscription_matched` appends a record
that contains "found a publisher" when `delta > 0` and a record that contains
"lost a publisher" when `delta < 0`. -/
theorem C4_matched_found_or_lost (delta : Int) (st : State) :
    (0 < delta → ∃ line, (on_subscription_matched delta st).cout = st.cout ++ [line] ∧
        Says line "found a publisher") ∧
    (delta < 0 → ∃ line, (on_subscription_matched delta st).cout = st.cout ++ [line] ∧
        Says line "lost a publisher") := by
  constructor
  · intro h
    refine ⟨subscription_matched_line delta, rfl, ?_⟩
    rw [matched_line_nonneg delta (by omega)]
    decide
  · intro h
    refine ⟨subscription_matched_line delta, rfl, ?_⟩
    rw [matched_line_neg delta h]
    decide

/-- C4, witness: `delta = 1` on the initial state. -/
theorem C4_matched_found_or_lost_witness :
    (0 : Int) < 1 ∧
    ∃ line, (on_subscription_matched 1 (State.init 2)).cout = (State.init 2).cout ++ [line] ∧
      Says line "found a publisher" :=
  ⟨by decide, (C4_matched_found_or_lost 1 (State.init 2)).1 (by decide)⟩

/-- C10: for every integer `delta`, `on_subscription_matched` appends exactly
one record and changes nothing else; the record contains "lost a publisher"
exactly when `delta < 0` and contains "found a publisher" exactly when
`delta >= 0`; a call with `delta = 0` logs "found a publisher". -/
theorem C10_matched_one_line (delta : Int) (st : State) :
    (∃ line, on_subscription_matched delta st = { st with cout := st.cout ++ [line] } ∧
      (Says line "lost a publisher" ↔ delta < 0) ∧
      (Says line "found a publisher" ↔ ¬ delta < 0)) ∧
    (on_subscription_matched 0 st).cout
      = st.cout ++ ["Inside on_subscription_matched: found a publisher"] := by
  constructor
  · refine ⟨subscription_matched_line delta, rfl, ?_, ?_⟩
    · by_cases h : delta < 0
      · rw [matched_line_neg delta h]
        exact ⟨fun _ => h, fun _ => by decide⟩
      · rw [matched_line_nonneg delta h]
        exact ⟨fun hs => absurd hs (by decide), fun hd => absurd hd h⟩
    · by_cases h : delta < 0
      · rw [matched_line_neg delta h]
        exact ⟨fun hs => absurd hs (by decide), fun hd => absurd h hd⟩
      · rw [matched_line_nonneg delta h]
        exact ⟨fun _ => h, fun _ => by decide⟩
  · show st.cout ++ [subscription_matched_line 0] = _
    rw [matched_line_nonneg 0 (by decide)]

/-- C5: for every state, `on_subscription_matched` with `+1` and then with
`-1` leaves `samples_read` (and everything but `cout`) unchanged and appends
exactly two records, the first saying "found" and not "lost", the second
saying "lost" and not "found". -/
theorem C5_matched_found_then_lost (st : State) :
    (on_subscription_matched (-1) (on_subscription_matched 1 st)).samples_read
      = st.samples_read ∧
    (∃ l1 l2, on_subscription_matched (-1) (on_subscription_matched 1 st)
        = { st with cout := st.cout ++ [l1, l2] } ∧
      Says l1 "found" ∧ ¬ Says l1 "lost" ∧ Says l2 "lost" ∧ ¬ Says l2 "found") ∧
    (∀ {T : Type} (fmt : T → String),
      run fmt st [Event.matched 1, Event.matched (-1)]
        = on_subscription_matched (-1) (on_subscription_matched 1 st)) := by
  refine ⟨rfl, ⟨subscription_matched_line 1, subscription_matched_line (-1), ?_, ?_⟩,
    fun _ => rfl⟩
  · simp [on_subscription_matched]
  · rw [matched_line_nonneg 1 (by decide), matched_line_neg (-1) (by decide)]
    decide

/-! ## C3: the exit code of `main` -/

/-- C3: the exit code of `main` is `0` when the parse result is `exit`, `1`
when it is `failure`, and otherwise `1` when `run_subscriber_application`
throws a `std::exception` and `0` when it returns; no other exit code occurs.
The application is not run on the first two paths, and the exception is the
only thing written to `cerr`. -/
theorem C3_main_exit_code (run_app : Unit → RunOutcome) (what : String) :
    main ParseReturn.exit run_app = (0, []) ∧
    main ParseReturn.failure run_app = (1, []) ∧
    main ParseReturn.ok (fun _ => RunOutcome.threw what)
      = (1, ["Exception in run_subscriber_application(): " ++ what]) ∧
    main ParseReturn.ok (fun _ => RunOutcome.returned) = (0, []) ∧
    (∀ p : ParseReturn, (main p run_app).1 = 0 ∨ (main p run_app).1 = 1) := by
  refine ⟨rfl, rfl, rfl, rfl, ?_⟩
  intro p
  cases p
  · unfold main
    cases run_app () <;> simp [EXIT_SUCCESS, EXIT_FAILURE]
  · right; rfl
  · left; rfl

/-! ## C7: monotonicity of the counter -/

/-- C7, as stated, fails: the state reached from the initial one by a batch of
`4294967295` valid samples has `samples_read = 4294967295`, and one more valid
sample takes the counter down to `0`. -/
theorem C7_counterexample :
    ∃ st : State,
      st = run id (State.init 4294967295)
        [Event.data (List.replicate 4294967295 (LoanedSample.mk "a" (SampleInfo.mk true)))] ∧
      (State.init 4294967295).samples_read = 0 ∧
      st.samples_read = 4294967295 ∧
      (step id st (Event.data [LoanedSample.mk "b" (SampleInfo.mk true)])).samples_read = 0 ∧
      (step id st (Event.data [LoanedSample.mk "b" (SampleInfo.mk true)])).samples_read
        < st.samples_read := by
  have hr := reach_count 4294967295 4294967295 uint_max_lt
  have hw := (wrap_at_uint_max _ hr "b").1
  refine ⟨_, rfl, rfl, hr, hw, ?_⟩
  rw [step, hw, hr]
  norm_num

/-- C7 (amended): `samples_read` starts at `0`; an operation other than
`on_data_available` (a connectivity event, a guard check, a print or sleep of
the loop, the signal) never changes it; and `on_data_available` leaves it
greater than or equal to its value before whenever the counter does not wrap,
that is whenever the value before plus the number of valid samples of the
batch is below `2 ^ 32`.  The same holds along a whole schedule. -/
theorem C7_samples_read_monotone_until_wrap {T : Type} (fmt : T → String) (st : State)
    (es : List (Event T)) (h : st.samples_read + validDelivered es < UINT_MODULUS) :
    (∀ sample_count, (State.init sample_count).samples_read = 0) ∧
    (∀ e : Event T, e.isData = false → (step fmt st e).samples_read = st.samples_read) ∧
    (∀ samples : List (LoanedSample T), st.samples_read + validCount samples < UINT_MODULUS →
      st.samples_read ≤ (on_data_available fmt samples st).samples_read) ∧
    st.samples_read ≤ (run fmt st es).samples_read := by
  have hst : st.samples_read < UINT_MODULUS := by omega
  refine ⟨fun _ => rfl, fun e he => step_samples_read_of_not_data fmt st e he, ?_, ?_⟩
  · intro samples hlt
    rw [oda_samples_read fmt samples st hst, Nat.mod_eq_of_lt hlt]
    exact Nat.le_add_right _ _
  · rw [run_samples_read fmt st es hst, Nat.mod_eq_of_lt h]
    exact Nat.le_add_right _ _

/-- C7, witness: from the initial state, a batch with one invalid and two
valid samples between loop steps. -/
theorem C7_samples_read_monotone_until_wrap_witness :
    (State.init 3).samples_read + validDelivered [Event.tick,
        Event.data [LoanedSample.mk "a" (SampleInfo.mk false),
          LoanedSample.mk "b" (SampleInfo.mk true), LoanedSample.mk "c" (SampleInfo.mk true)],
        Event.tick] < UINT_MODULUS ∧
    (State.init 3).samples_read ≤ (run id (State.init 3) [Event.tick,
        Event.data [LoanedSample.mk "a" (SampleInfo.mk false),
          LoanedSample.mk "b" (SampleInfo.mk true), LoanedSample.mk "c" (SampleInfo.mk true)],
        Event.tick]).samples_read :=
  ⟨by decide,
   (C7_samples_read_monotone_until_wrap id (State.init 3) [Event.tick,
        Event.data [LoanedSample.mk "a" (SampleInfo.mk false),
          LoanedSample.mk "b" (SampleInfo.mk true), LoanedSample.mk "c" (SampleInfo.mk true)],
        Event.tick] (by decide)).2.2.2⟩

/-! ## Lemmas on the driver loop -/

theorem loop_guard_eq_false_iff (st : State) :
    loop_guard st = false ↔ (st.shutdown_requested = true ∨ st.sample_count ≤ st.samples_read) := by
  unfold loop_guard
  cases st.shutdown_requested <;> simp

theorem driver_step_check (st : State) (hpc : st.pc = LoopPc.check) :
    driver_step st = if loop_guard st then { st with pc := LoopPc.announce }
      else { st with pc := LoopPc.exited } := by
  unfold driver_step
  rw [hpc]

theorem driver_step_announce (st : State) (hpc : st.pc = LoopPc.announce) :
    driver_step st = { st with cout := st.cout ++ [sleeping_line], pc := LoopPc.sleeping } := by
  unfold driver_step
  rw [hpc]

theorem driver_step_sleeping (st : State) (hpc : st.pc = LoopPc.sleeping) :
    driver_step st = { st with slept := st.slept ++ [Duration.mk 5 0], pc := LoopPc.check } := by
  unfold driver_step
  rw [hpc]

theorem driver_step_exited (st : State) (hpc : st.pc = LoopPc.exited) :
    driver_step st = st := by
  unfold driver_step
  rw [hpc]

/-- An environment event leaves the control point, the sleeps and
`sample_count` alone. -/
theorem step_env_frame {T : Type} (fmt : T → String) (st : State) (e : Event T)
    (he : e.isEnv = true) :
    (step fmt st e).pc = st.pc ∧ (step fmt st e).slept = st.slept ∧
    (step fmt st e).sample_count = st.sample_count := by
  cases e with
  | tick => simp [Event.isEnv] at he
  | data samples =>
      obtain ⟨_, h2, h3, h4⟩ := oda_frame fmt samples st
      exact ⟨h4, h3, h2⟩
  | matched d => exact ⟨rfl, rfl, rfl⟩
  | signal => exact ⟨rfl, rfl, rfl⟩

theorem run_env_frame {T : Type} (fmt : T → String) (st : State) (es : List (Event T))
    (hes : ∀ e ∈ es, e.isEnv = true) :
    (run fmt st es).pc = st.pc ∧ (run fmt st es).slept = st.slept ∧
    (run fmt st es).sample_count = st.sample_count := by
  induction es generalizing st with
  | nil => exact ⟨rfl, rfl, rfl⟩
  | cons e es ih =>
      rw [run_cons]
      obtain ⟨h1, h2, h3⟩ := ih (step fmt st e) (fun x hx => hes x (List.mem_cons_of_mem _ hx))
      obtain ⟨g1, g2, g3⟩ := step_env_frame fmt st e (hes e (List.mem_cons_self _ _))
      exact ⟨h1.trans g1, h2.trans g2, h3.trans g3⟩

/-- One turn of the loop body under arbitrary environment events: guard
passed, record printed, sleep done, back at the guard. -/
theorem run_body_turn {T : Type} (fmt : T → String) (st : State) (e1 e2 : List (Event T))
    (hpc : st.pc = LoopPc.check) (hg : loop_guard st = true)
    (h1 : ∀ e ∈ e1, e.isEnv = true) (h2 : ∀ e ∈ e2, e.isEnv = true) :
    (run fmt st (Event.tick :: e1 ++ Event.tick :: e2 ++ [Event.tick])).pc = LoopPc.check ∧
    (run fmt st (Event.tick :: e1 ++ Event.tick :: e2 ++ [Event.tick])).slept
      = st.slept ++ [Duration.mk 5 0] := by
  have ha : driver_step st = { st with pc := LoopPc.announce } := by
    rw [driver_step_check st hpc, hg]; rfl
  have hrun : run fmt st (Event.tick :: e1 ++ Event.tick :: e2 ++ [Event.tick]) =
      driver_step (run fmt (driver_step (run fmt (driver_step st) e1)) e2) := by
    rw [List.cons_append, List.cons_append, run_cons, run_append, run_append, run_cons,
      run_cons, run_nil]
    rfl
  obtain ⟨p1, s1, _⟩ := run_env_frame fmt (driver_step st) e1 h1
  rw [ha] at p1 s1
  have hb := driver_step_announce (run fmt (driver_step st) e1) (by rw [ha]; exact p1)
  obtain ⟨p2, s2, _⟩ := run_env_frame fmt (driver_step (run fmt (driver_step st) e1)) e2 h2
  rw [hb] at p2 s2
  have hc := driver_step_sleeping (run fmt (driver_step (run fmt (driver_step st) e1)) e2)
    (by rw [hb]; exact p2)
  rw [hrun, hc]
  refine ⟨rfl, ?_⟩
  show (run fmt (driver_step (run fmt (driver_step st) e1)) e2).slept ++ [Duration.mk 5 0] = _
  rw [hb, s2]
  show (run fmt (driver_step st) e1).slept ++ [Duration.mk 5 0] = _
  rw [ha, s1]

/-- While the guard holds and nothing else happens, the main thread stays in
the loop. -/
theorem driver_step_stays (st : State) (hpc : st.pc ≠ LoopPc.exited)
    (hg : loop_guard st = true) :
    (driver_step st).pc ≠ LoopPc.exited ∧ loop_guard (driver_step st) = true := by
  have hgs : loop_guard (driver_step st) = loop_guard st := by
    unfold loop_guard
    rw [driver_step_shutdown, driver_step_samples_read, driver_step_sample_count]
  refine ⟨?_, hgs.trans hg⟩
  cases hp : st.pc with
  | check => rw [driver_step_check st hp, hg]; simp
  | announce => rw [driver_step_announce st hp]; simp
  | sleeping => rw [driver_step_sleeping st hp]; simp
  | exited => exact absurd hp hpc

theorem run_ticks_stay {T : Type} (fmt : T → String) (n : Nat) (st : State)
    (hpc : st.pc ≠ LoopPc.exited) (hg : loop_guard st = true) :
    (run fmt st (List.replicate n Event.tick)).pc ≠ LoopPc.exited := by
  induction n generalizing st with
  | zero => exact hpc
  | succ k ih =>
      rw [List.replicate_succ, run_cons]
      obtain ⟨h1, h2⟩ := driver_step_stays st hpc hg
      exact ih (driver_step st) h1 h2

/-- The loop is left only by a guard evaluation that fails. -/
theorem step_exits_only_at_guard {T : Type} (fmt : T → String) (s : State) (e : Event T)
    (hne : s.pc ≠ LoopPc.exited) (hex : (step fmt s e).pc = LoopPc.exited) :
    e = Event.tick ∧ s.pc = LoopPc.check ∧
      (s.shutdown_requested = true ∨ s.sample_count ≤ s.samples_read) := by
  cases e with
  | tick =>
      refine ⟨rfl, ?_⟩
      have hex2 : (driver_step s).pc = LoopPc.exited := hex
      cases hp : s.pc with
      | check =>
          refine ⟨rfl, ?_⟩
          rw [driver_step_check s hp] at hex2
          cases hg : loop_guard s with
          | true => rw [hg] at hex2; simp at hex2
          | false => exact (loop_guard_eq_false_iff s).1 hg
      | announce => rw [driver_step_announce s hp] at hex2; simp at hex2
      | sleeping => rw [driver_step_sleeping s hp] at hex2; simp at hex2
      | exited => exact absurd hp hne
  | data samples =>
      exact absurd ((step_env_frame fmt s (Event.data samples) rfl).1.symm.trans hex) hne
  | matched d => exact absurd hex hne
  | signal => exact absurd hex hne

/-- One turn of the loop body with nothing in between. -/
theorem body_turn_alone (st : State) (hpc : st.pc = LoopPc.check)
    (hg : loop_guard st = true) :
    driver_step (driver_step (driver_step st))
      = { st with cout := st.cout ++ [sleeping_line],
                  slept := st.slept ++ [Duration.mk 5 0] } := by
  rw [driver_step_check st hpc, hg]
  cases st with
  | mk a b c d e pc =>
      simp only at hpc
      subst hpc
      rfl

/-- Left alone with a true guard, the loop uses up any fuel. -/
theorem run_subscriber_application_none (fuel : Nat) (st : State)
    (hpc : st.pc = LoopPc.check) (hg : loop_guard st = true) :
    run_subscriber_application fuel st = none := by
  induction fuel generalizing st with
  | zero => rfl
  | succ k ih =>
      rw [run_subscriber_application, if_pos hg, body_turn_alone st hpc hg]
      exact ih _ hpc hg

/-- With a false guard the loop returns at its first guard evaluation. -/
theorem run_subscriber_application_some (fuel : Nat) (st : State)
    (hpc : st.pc = LoopPc.check) (hg : loop_guard st = false) :
    run_subscriber_application (fuel + 1) st = some { st with pc := LoopPc.exited } := by
  rw [run_subscriber_application, hg, driver_step_check st hpc, hg]
  rfl

/-! ## C2: when the loop exits -/

/-- C2: at an evaluation of the loop guard the loop exits exactly when
`shutdown_requested` is true or `samples_read >= sample_count`, changing
nothing else; otherwise it prints the "sleeping" record, performs one sleep of
`Duration(5)` and is back at the guard, whatever the listener does meanwhile;
with the guard true and no event of the environment it never exits; no step
other than a failing guard evaluation leaves the loop; and the loop run on its
own returns for some fuel exactly when the flag is true or
`samples_read >= sample_count`. -/
theorem C2_loop_exits_iff {T : Type} (fmt : T → String) (st : State)
    (hpc : st.pc = LoopPc.check) :
    ((driver_step st).pc = LoopPc.exited ↔
      (st.shutdown_requested = true ∨ st.sample_count ≤ st.samples_read)) ∧
    ((st.shutdown_requested = true ∨ st.sample_count ≤ st.samples_read) →
      driver_step st = { st with pc := LoopPc.exited }) ∧
    (¬ (st.shutdown_requested = true ∨ st.sample_count ≤ st.samples_read) →
      driver_step st = { st with pc := LoopPc.announce } ∧
      run fmt st [Event.tick, Event.tick, Event.tick]
        = { st with cout := st.cout ++ [sleeping_line],
                    slept := st.slept ++ [Duration.mk 5 0] } ∧
      (∀ e1 e2 : List (Event T), (∀ e ∈ e1, e.isEnv = true) → (∀ e ∈ e2, e.isEnv = true) →
        (run fmt st (Event.tick :: e1 ++ Event.tick :: e2 ++ [Event.tick])).pc = LoopPc.check ∧
        (run fmt st (Event.tick :: e1 ++ Event.tick :: e2 ++ [Event.tick])).slept
          = st.slept ++ [Duration.mk 5 0]) ∧
      (∀ n, (run fmt st (List.replicate n Event.tick)).pc ≠ LoopPc.exited)) ∧
    (∀ (s : State) (e : Event T), s.pc ≠ LoopPc.exited → (step fmt s e).pc = LoopPc.exited →
      e = Event.tick ∧ s.pc = LoopPc.check ∧
        (s.shutdown_requested = true ∨ s.sample_count ≤ s.samples_read)) ∧
    ((∃ fuel, (run_subscriber_application fuel st).isSome = true) ↔
      (st.shutdown_requested = true ∨ st.sample_count ≤ st.samples_read)) := by
  have hiff := loop_guard_eq_false_iff st
  refine ⟨?_, ?_, ?_, fun s e => step_exits_only_at_guard fmt s e, ?_⟩
  rotate_right
  · constructor
    · rintro ⟨fuel, hf⟩
      cases hgs : loop_guard st with
      | true => rw [run_subscriber_application_none fuel st hpc hgs] at hf; simp at hf
      | false => exact hiff.1 hgs
    · intro h
      exact ⟨1, by rw [run_subscriber_application_some 0 st hpc (hiff.2 h)]; rfl⟩
  · rw [driver_step_check st hpc, ← hiff]
    cases loop_guard st <;> simp
  · intro h
    rw [driver_step_check st hpc, hiff.2 h]
    rfl
  · intro h
    have hg : loop_guard st = true := by
      cases hgs : loop_guard st with
      | true => rfl
      | false => exact absurd (hiff.1 hgs) h
    have ha : driver_step st = { st with pc := LoopPc.announce } := by
      rw [driver_step_check st hpc, hg]; rfl
    refine ⟨ha, ?_, fun e1 e2 h1 h2 => run_body_turn fmt st e1 e2 hpc hg h1 h2,
      fun n => run_ticks_stay fmt n st (by rw [hpc]; simp) hg⟩
    rw [run_cons, run_cons, run_cons, run_nil]
    show driver_step (driver_step (driver_step st)) = _
    rw [ha]
    cases st with
    | mk a b c d e pc =>
        simp only at hpc
        subst hpc
        rfl

/-- C2, witness: `sample_count = 2`, no sample read and no shutdown: the guard
passes, one turn of the body follows; after two samples the guard fails. -/
theorem C2_loop_exits_iff_witness :
    (State.init 2).pc = LoopPc.check ∧
    run id (State.init 2) [Event.tick, Event.tick, Event.tick]
      = { State.init 2 with cout := [sleeping_line], slept := [Duration.mk 5 0] } ∧
    (driver_step { State.init 2 with samples_read := 2 }).pc = LoopPc.exited :=
  ⟨rfl,
   ((C2_loop_exits_iff id (State.init 2) rfl).2.2.1 (by decide)).2.1,
   (C2_loop_exits_iff id { State.init 2 with samples_read := 2 } rfl).1.2 (by decide)⟩

/-! ## C6: shutdown requested before the loop -/

theorem matched_line_ne_sleeping (delta : Int) :
    subscription_matched_line delta ≠ sleeping_line := by
  by_cases h : delta < 0
  · rw [matched_line_neg delta h]; decide
  · rw [matched_line_nonneg delta h]; decide

/-- With the flag set and the main thread at the guard or past the loop, an
event that delivers no sample keeps that situation, the counter, the sleeps
and the number of "sleeping" records; a step of the main thread ends past the
loop. -/
theorem step_shutdown_inv {T : Type} (fmt : T → String) (st : State) (e : Event T)
    (he : e.isData = false) (hs : st.shutdown_requested = true)
    (hp : st.pc = LoopPc.check ∨ st.pc = LoopPc.exited) :
    (step fmt st e).shutdown_requested = true ∧
    ((step fmt st e).pc = LoopPc.check ∨ (step fmt st e).pc = LoopPc.exited) ∧
    (step fmt st e).samples_read = st.samples_read ∧
    (step fmt st e).slept = st.slept ∧
    (step fmt st e).cout.count sleeping_line = st.cout.count sleeping_line ∧
    (e = Event.tick → (step fmt st e).pc = LoopPc.exited) ∧
    (st.pc = LoopPc.exited → (step fmt st e).pc = LoopPc.exited) := by
  cases e with
  | tick =>
      show (driver_step st).shutdown_requested = true ∧ _
      have hg : loop_guard st = false := (loop_guard_eq_false_iff st).2 (Or.inl hs)
      have hd : driver_step st = { st with pc := LoopPc.exited } := by
        rcases hp with hp | hp
        · rw [driver_step_check st hp, hg]; rfl
        · rw [driver_step_exited st hp]
          cases st with
          | mk a b c d e pc =>
              simp only at hp
              subst hp
              rfl
      show _ ∧ ((driver_step st).pc = _ ∨ (driver_step st).pc = _) ∧
        (driver_step st).samples_read = _ ∧ (driver_step st).slept = _ ∧
        (driver_step st).cout.count sleeping_line = _ ∧
        (_ → (driver_step st).pc = _) ∧ (_ → (driver_step st).pc = _)
      rw [hd]
      exact ⟨hs, Or.inr rfl, rfl, rfl, rfl, fun _ => rfl, fun _ => rfl⟩
  | data samples => simp [Event.isData] at he
  | matched d =>
      refine ⟨hs, hp, rfl, rfl, ?_, (fun h => by cases h), fun h => h⟩
      show (st.cout ++ [subscription_matched_line d]).count sleeping_line = _
      rw [List.count_append, List.count_singleton]
      simp [matched_line_ne_sleeping d]
  | signal =>
      exact ⟨rfl, hp, rfl, rfl, rfl, (fun h => by cases h), fun h => h⟩

theorem run_shutdown_inv {T : Type} (fmt : T → String) (es : List (Event T)) (st : State)
    (hes : ∀ e ∈ es, e.isData = false) (hs : st.shutdown_requested = true)
    (hp : st.pc = LoopPc.check ∨ st.pc = LoopPc.exited) :
    (run fmt st es).samples_read = st.samples_read ∧
    (run fmt st es).slept = st.slept ∧
    (run fmt st es).cout.count sleeping_line = st.cout.count sleeping_line ∧
    (Event.tick ∈ es ∨ st.pc = LoopPc.exited → (run fmt st es).pc = LoopPc.exited) := by
  induction es generalizing st with
  | nil =>
      refine ⟨rfl, rfl, rfl, fun h => ?_⟩
      rcases h with h | h
      · cases h
      · exact h
  | cons e es ih =>
      obtain ⟨g1, g2, g3, g4, g5, g6, g7⟩ :=
        step_shutdown_inv fmt st e (hes e (List.mem_cons_self _ _)) hs hp
      obtain ⟨i1, i2, i3, i4⟩ :=
        ih (step fmt st e) (fun x hx => hes x (List.mem_cons_of_mem _ hx)) g1 g2
      rw [run_cons]
      refine ⟨i1.trans g3, i2.trans g4, i3.trans g5, fun h => i4 ?_⟩
      rcases h with h | h
      · rcases List.mem_cons.1 h with h | h
        · exact Or.inr (g6 h.symm)
        · exact Or.inl h
      · exact Or.inr (g7 h)

theorem run_ticks_exited {T : Type} (fmt : T → String) (n : Nat) (st : State)
    (hp : st.pc = LoopPc.exited) : run fmt st (List.replicate n Event.tick) = st := by
  induction n with
  | zero => rfl
  | succ k ih =>
      rw [List.replicate_succ, run_cons]
      show run fmt (driver_step st) _ = st
      rw [driver_step_exited st hp, ih]

/-- C6: for every `sample_count` and every value of `samples_read`, when the
shutdown flag is already true as the loop is entered, the first guard
evaluation exits and changes nothing else; however many steps the main thread
takes it performs no sleep and prints nothing; and along every schedule that
delivers no sample the counter is unchanged, no sleep is performed, no
"sleeping" record is printed, and the loop has exited once the main thread has
taken a step.  The loop run on its own returns that state for every positive
fuel. -/
theorem C6_shutdown_before_loop {T : Type} (fmt : T → String) (st : State)
    (hpc : st.pc = LoopPc.check) (hs : st.shutdown_requested = true) :
    driver_step st = { st with pc := LoopPc.exited } ∧
    (∀ n, run fmt st (List.replicate (n + 1) Event.tick) = { st with pc := LoopPc.exited }) ∧
    (∀ es : List (Event T), (∀ e ∈ es, e.isData = false) →
      (run fmt st es).samples_read = st.samples_read ∧
      (run fmt st es).slept = st.slept ∧
      (run fmt st es).cout.count sleeping_line = st.cout.count sleeping_line ∧
      (Event.tick ∈ es → (run fmt st es).pc = LoopPc.exited)) ∧
    (∀ fuel, run_subscriber_application (fuel + 1) st = some { st with pc := LoopPc.exited }) := by
  have hg : loop_guard st = false := (loop_guard_eq_false_iff st).2 (Or.inl hs)
  have hd : driver_step st = { st with pc := LoopPc.exited } := by
    rw [driver_step_check st hpc, hg]; rfl
  refine ⟨hd, fun n => ?_, fun es hes => ?_,
    fun fuel => run_subscriber_application_some fuel st hpc hg⟩
  · rw [List.replicate_succ, run_cons]
    show run fmt (driver_step st) _ = _
    rw [hd]
    exact run_ticks_exited fmt n _ rfl
  · obtain ⟨h1, h2, h3, h4⟩ := run_shutdown_inv fmt es st hes hs (Or.inl hpc)
    exact ⟨h1, h2, h3, fun h => h4 (Or.inl h)⟩

/-- C6, witness: `sample_count = 2`, `samples_read = 0`, flag set: the loop
exits at once with `samples_read = 0`, no sleep and nothing printed. -/
theorem C6_shutdown_before_loop_witness :
    ({ State.init 2 with shutdown_requested := true } : State).pc = LoopPc.check ∧
    ({ State.init 2 with shutdown_requested := true } : State).shutdown_requested = true ∧
    driver_step { State.init 2 with shutdown_requested := true }
      = { samples_read := 0, shutdown_requested := true, sample_count := 2, cout := [],
          slept := [], pc := LoopPc.exited } :=
  ⟨rfl, rfl, (C6_shutdown_before_loop id { State.init 2 with shutdown_requested := true }
    rfl rfl).1⟩

/-! ## C8: how far the counter can pass `sample_count` -/

/-- C8, as stated, fails: with `sample_count = 1` the guard passes at `0`,
three batches of two valid samples each arrive before the next guard
evaluation, and the loop exits with the flag false and `samples_read = 6`,
which exceeds `sample_count` by `5`, more than the size `2` of any single
batch. -/
theorem C8_counterexample :
    (run id (State.init 1) [Event.tick, Event.tick,
        Event.data [LoanedSample.mk "a" (SampleInfo.mk true), LoanedSample.mk "b" (SampleInfo.mk true)],
        Event.data [LoanedSample.mk "c" (SampleInfo.mk true), LoanedSample.mk "d" (SampleInfo.mk true)],
        Event.data [LoanedSample.mk "e" (SampleInfo.mk true), LoanedSample.mk "f" (SampleInfo.mk true)],
        Event.tick]).pc = LoopPc.check ∧
    run id (State.init 1) [Event.tick, Event.tick,
        Event.data [LoanedSample.mk "a" (SampleInfo.mk true), LoanedSample.mk "b" (SampleInfo.mk true)],
        Event.data [LoanedSample.mk "c" (SampleInfo.mk true), LoanedSample.mk "d" (SampleInfo.mk true)],
        Event.data [LoanedSample.mk "e" (SampleInfo.mk true), LoanedSample.mk "f" (SampleInfo.mk true)],
        Event.tick, Event.tick]
      = { samples_read := 6, shutdown_requested := false, sample_count := 1,
          cout := [sleeping_line, "a", "b", "c", "d", "e", "f"],
          slept := [Duration.mk 5 0], pc := LoopPc.exited } ∧
    batchSizes [Event.tick, Event.tick,
        Event.data [LoanedSample.mk "a" (SampleInfo.mk true), LoanedSample.mk "b" (SampleInfo.mk true)],
        Event.data [LoanedSample.mk "c" (SampleInfo.mk true), LoanedSample.mk "d" (SampleInfo.mk true)],
        Event.data [LoanedSample.mk "e" (SampleInfo.mk true), LoanedSample.mk "f" (SampleInfo.mk true)],
        Event.tick, Event.tick] = [2, 2, 2] ∧
    ¬ (6 ≤ 1 + 2) := by
  refine ⟨by decide, by decide, by decide, by decide⟩

theorem validDelivered_append {T : Type} (es fs : List (Event T)) :
    validDelivered (es ++ fs) = validDelivered es + validDelivered fs := by
  induction es with
  | nil => simp [validDelivered]
  | cons e es ih =>
      rw [List.cons_append, validDelivered_cons, ih, validDelivered_cons e es, Nat.add_assoc]

theorem validDelivered_le_samplesDelivered {T : Type} (es : List (Event T)) :
    validDelivered es ≤ samplesDelivered es := by
  induction es with
  | nil => exact Nat.le_refl _
  | cons e es ih =>
      cases e with
      | tick => exact ih
      | data samples =>
          show validCount samples + validDelivered es ≤ samples.length + samplesDelivered es
          exact Nat.add_le_add (validCount_le_length samples) ih
      | matched d => exact ih
      | signal => exact ih

/-- The counter never grows by more than the valid samples delivered. -/
theorem run_samples_read_le {T : Type} (fmt : T → String) (st : State) (es : List (Event T))
    (h : st.samples_read < UINT_MODULUS) :
    (run fmt st es).samples_read ≤ st.samples_read + validDelivered es := by
  rw [run_samples_read fmt st es h]
  exact Nat.mod_le _ _

theorem loop_guard_lt (st : State) (hg : loop_guard st = true) :
    st.samples_read < st.sample_count := by
  unfold loop_guard at hg
  simp at hg
  exact hg.2

theorem run_sample_count {T : Type} (fmt : T → String) (st : State) (es : List (Event T)) :
    (run fmt st es).sample_count = st.sample_count := by
  induction es generalizing st with
  | nil => rfl
  | cons e es ih =>
      rw [run_cons, ih]
      cases e with
      | tick => exact driver_step_sample_count st
      | data samples => exact (oda_frame fmt samples st).2.1
      | matched d => rfl
      | signal => rfl

/-- C8 (amended): take a guard evaluation that lets the loop continue
(`samples_read < sample_count`, flag false) and any events of the feed
interleaved with the print and the sleep of the loop body, up to the next
guard evaluation.  At that evaluation `samples_read` is below `sample_count`
plus the number of valid samples of all the batches delivered in between, so
when the loop exits there with the flag false the counter exceeds
`sample_count` by less than the total number of samples delivered since the
previous guard evaluation.  When the loop exits at its first guard evaluation
the counter is at most the number of valid samples delivered before it. -/
theorem C8_overshoot_bounded_by_window {T : Type} (fmt : T → String) (st : State)
    (e1 e2 e3 : List (Event T)) (hpc : st.pc = LoopPc.check)
    (hr : st.samples_read < UINT_MODULUS) (hg : loop_guard st = true)
    (h1 : ∀ e ∈ e1, e.isEnv = true) (h2 : ∀ e ∈ e2, e.isEnv = true)
    (h3 : ∀ e ∈ e3, e.isEnv = true) :
    (run fmt st (Event.tick :: e1 ++ Event.tick :: e2 ++ Event.tick :: e3)).pc = LoopPc.check ∧
    (run fmt st (Event.tick :: e1 ++ Event.tick :: e2 ++ Event.tick :: e3
        ++ [Event.tick])).sample_count = st.sample_count ∧
    (run fmt st (Event.tick :: e1 ++ Event.tick :: e2 ++ Event.tick :: e3
        ++ [Event.tick])).samples_read
      < st.sample_count + validDelivered (e1 ++ e2 ++ e3) ∧
    validDelivered (e1 ++ e2 ++ e3) ≤ samplesDelivered (e1 ++ e2 ++ e3) ∧
    (∀ (sample_count : Nat) (e0 : List (Event T)),
      (run fmt (State.init sample_count) (e0 ++ [Event.tick])).samples_read
        ≤ validDelivered e0) := by
  refine ⟨?_, run_sample_count fmt st _, ?_, validDelivered_le_samplesDelivered _, ?_⟩
  · have hl : Event.tick :: e1 ++ Event.tick :: e2 ++ Event.tick :: e3
        = (Event.tick :: e1 ++ Event.tick :: e2 ++ [Event.tick]) ++ e3 := by simp
    rw [hl, run_append, (run_env_frame fmt _ e3 h3).1]
    exact (run_body_turn fmt st e1 e2 hpc hg h1 h2).1
  · have hv : validDelivered (Event.tick :: e1 ++ Event.tick :: e2 ++ Event.tick :: e3
        ++ [Event.tick]) = validDelivered (e1 ++ e2 ++ e3) := by
      simp [validDelivered_append, validDelivered]
    have hle := run_samples_read_le fmt st
      (Event.tick :: e1 ++ Event.tick :: e2 ++ Event.tick :: e3 ++ [Event.tick]) hr
    rw [hv] at hle
    have hlt := loop_guard_lt st hg
    omega
  · intro sample_count e0
    have hle := run_samples_read_le fmt (State.init sample_count) (e0 ++ [Event.tick])
      UINT_MODULUS_pos
    have hv : validDelivered (e0 ++ [Event.tick]) = validDelivered e0 := by
      simp [validDelivered_append, validDelivered]
    rw [hv] at hle
    simpa [State.init] using hle

/-- C8, witness: `sample_count = 1`, three batches of two valid samples during
the sleep: the counter is `6 < 1 + 6` at the exit. -/
theorem C8_overshoot_bounded_by_window_witness :
    (State.init 1).pc = LoopPc.check ∧ (State.init 1).samples_read < UINT_MODULUS ∧
    loop_guard (State.init 1) = true ∧
    (run id (State.init 1) (Event.tick :: [] ++ Event.tick ::
        [Event.data [LoanedSample.mk "a" (SampleInfo.mk true), LoanedSample.mk "b" (SampleInfo.mk true)],
         Event.data [LoanedSample.mk "c" (SampleInfo.mk true), LoanedSample.mk "d" (SampleInfo.mk true)],
         Event.data [LoanedSample.mk "e" (SampleInfo.mk true), LoanedSample.mk "f" (SampleInfo.mk true)]]
        ++ Event.tick :: [] ++ [Event.tick])).samples_read
      < (State.init 1).sample_count + validDelivered ([] ++
        [Event.data [LoanedSample.mk "a" (SampleInfo.mk true), LoanedSample.mk "b" (SampleInfo.mk true)],
         Event.data [LoanedSample.mk "c" (SampleInfo.mk true), LoanedSample.mk "d" (SampleInfo.mk true)],
         Event.data [LoanedSample.mk "e" (SampleInfo.mk true), LoanedSample.mk "f" (SampleInfo.mk true)]]
        ++ []) :=
  ⟨rfl, by decide, rfl,
   (C8_overshoot_bounded_by_window id (State.init 1) []
        [Event.data [LoanedSample.mk "a" (SampleInfo.mk true), LoanedSample.mk "b" (SampleInfo.mk true)],
         Event.data [LoanedSample.mk "c" (SampleInfo.mk true), LoanedSample.mk "d" (SampleInfo.mk true)],
         Event.data [LoanedSample.mk "e" (SampleInfo.mk true), LoanedSample.mk "f" (SampleInfo.mk true)]]
        [] rfl (by decide) rfl (by simp) (by simp [Event.isEnv]) (by simp)).2.2.1⟩

end ShapesSubscriber
